import Mathlib

/-!
Verification of the network simulator core found in api.py:
the device registry (SimulatorState.add_device, SimulatorState.remove_device,
SimulatorState.get_metrics), the websocket broadcast hub (ConnectionManager),
and the perturbation step of the background loop simulate_network.

Modelling conventions: Python floats for latency and throughput are embedded
as rationals; the random source (random.uniform) is an injected sampler
function taking the two bounds, so every theorem quantifies over all possible
draws; a Python dict is an insertion-ordered association list; an operation
that can raise returns an Option, with none standing for the raised exception.
Wall-clock timestamps (datetime.now) are presentation data and are omitted.
-/

namespace NetSim

/-- A decimal digit rendered as a character. -/
def digitChar (d : Nat) : Char := Char.ofNat (48 + d)

/-- Little-endian decimal digits computed with explicit fuel, so that the
definition is structurally recursive and evaluates inside the kernel. -/
def natDigitsAux : Nat → Nat → List Nat
  | 0, _ => []
  | _ + 1, 0 => []
  | fuel + 1, n + 1 => (n + 1) % 10 :: natDigitsAux fuel ((n + 1) / 10)

/-- Little-endian decimal digits of a natural number. -/
def natDigits (n : Nat) : List Nat := natDigitsAux n n

/-- Decimal rendering of a natural number as its list of digit characters,
most significant first, modelling the Python d format code. -/
def natChars (n : Nat) : List Char :=
  if n = 0 then ['0'] else ((natDigits n).map digitChar).reverse

/-- Decimal rendering left-padded with zero characters to width 4, modelling
the Python 04d format code used for device identifiers. -/
def pad4Chars (n : Nat) : List Char :=
  List.replicate (4 - (natChars n).length) '0' ++ natChars n

/-- String form of the padded counter. -/
def pad4 (n : Nat) : String := ⟨pad4Chars n⟩

/-- Device identifier, api.py line 54: the device type, an underscore, and
the zero-padded sequence counter. -/
def mkDeviceId (device_type : String) (counter : Nat) : String :=
  device_type ++ "_" ++ pad4 counter

/-- Entity record (the Device pydantic model, api.py lines 21-27), minus the
wall-clock connected_at timestamp. -/
structure Device where
  id : String
  type : String
  slice : String
  latency : ℚ
  throughput : ℚ
deriving DecidableEq

/-- Registry state (SimulatorState, api.py lines 44-50): the devices dict as
an insertion-ordered association list keyed by device id, and the sequence
counter. -/
structure SimulatorState where
  devices : List (String × Device)
  device_counter : Nat
deriving DecidableEq

/-- A fresh registry: empty dict, counter zero. -/
def initialState : SimulatorState := ⟨[], 0⟩

/-- Latency range table keyed by slice type, api.py lines 57-61. -/
def latency_ranges (slice_type : String) : Option (ℚ × ℚ) :=
  if slice_type = "URLLC" then some (1, 5)
  else if slice_type = "eMBB" then some (10, 30)
  else if slice_type = "mMTC" then some (50, 200)
  else none

/-- The latency range actually used by add_device, api.py line 75: the table
entry when the slice type is known, the documented fallback otherwise. -/
def latencyRangeFor (slice_type : String) : ℚ × ℚ :=
  (latency_ranges slice_type).getD (10, 50)

/-- Throughput range table keyed by device type then slice type, api.py
lines 64-68; a missing key on either level is a KeyError. -/
def throughput_ranges (device_type slice_type : String) : Option (ℚ × ℚ) :=
  if device_type = "smartphone" then
    if slice_type = "eMBB" then some (100, 1000)
    else if slice_type = "URLLC" then some (50, 200)
    else if slice_type = "mMTC" then some (10, 50)
    else none
  else if device_type = "vehicle" then
    if slice_type = "eMBB" then some (50, 500)
    else if slice_type = "URLLC" then some (100, 500)
    else if slice_type = "mMTC" then some (20, 100)
    else none
  else if device_type = "iot" then
    if slice_type = "eMBB" then some (10, 100)
    else if slice_type = "URLLC" then some (5, 50)
    else if slice_type = "mMTC" then some (1, 10)
    else none
  else none

/-- The closed set of device types present in the throughput table. -/
def deviceTypes : List String := ["smartphone", "vehicle", "iot"]

/-- Python dict assignment: replace in place when the key is present,
append at the end otherwise. -/
def dictInsert (l : List (String × Device)) (k : String) (v : Device) :
    List (String × Device) :=
  if l.any (fun p => p.1 = k) then l.map (fun p => if p.1 = k then (k, v) else p)
  else l ++ [(k, v)]

/-- SimulatorState.add_device, api.py lines 52-80. The counter is incremented
first; the throughput table lookup can raise KeyError (modelled by the none
branch), in which case no device is inserted but the counter increment has
already happened. The sampler u models random.uniform applied to the two
bounds of the selected range. -/
def add_device (u : ℚ → ℚ → ℚ) (s : SimulatorState)
    (device_type slice_type : String) : SimulatorState × Option Device :=
  let counter := s.device_counter + 1
  let device_id := mkDeviceId device_type counter
  match throughput_ranges device_type slice_type with
  | none => ({ s with device_counter := counter }, none)
  | some tr =>
      let lr := latencyRangeFor slice_type
      let device : Device :=
        { id := device_id, type := device_type, slice := slice_type,
          latency := u lr.1 lr.2, throughput := u tr.1 tr.2 }
      ({ devices := dictInsert s.devices device_id device,
         device_counter := counter }, some device)

/-- Membership test on the devices dict, api.py line 83. -/
def hasKey (s : SimulatorState) (device_id : String) : Bool :=
  s.devices.any (fun p => p.1 = device_id)

/-- SimulatorState.remove_device, api.py lines 82-86: delete and return true
when the id is present, return false otherwise, never raise. -/
def remove_device (s : SimulatorState) (device_id : String) :
    SimulatorState × Bool :=
  if hasKey s device_id then
    ({ s with devices := s.devices.filter (fun p => p.1 != device_id) }, true)
  else (s, false)

/-- Python round at two decimal places on the rational model: scale by 100,
round half to even, scale back. -/
def round2 (q : ℚ) : ℚ :=
  let scaled := q * 100
  let f : ℤ := scaled.floor
  let frac := scaled - (f : ℚ)
  let r : ℤ :=
    if frac.blt (1 / 2) then f
    else if (1 / 2 : ℚ).blt frac then f + 1
    else if f % 2 = 0 then f else f + 1
  (r : ℚ) / 100

/-- Executable minimum on rationals, modelling the Python min builtin. -/
def ratMin (a b : ℚ) : ℚ := if a.blt b then a else b

/-- One entry of the bounded entity listing built by get_metrics,
api.py lines 115-124. -/
structure DeviceSummary where
  id : String
  type : String
  slice : String
  latency : ℚ
  throughput : ℚ
deriving DecidableEq

/-- The NetworkMetrics snapshot, api.py lines 34-41, minus the wall-clock
timestamp field. -/
structure NetworkMetrics where
  network_load : ℚ
  total_devices : Nat
  avg_latency : ℚ
  throughput : ℚ
  slice_distribution : List (String × Nat)
  devices : List DeviceSummary
deriving DecidableEq

/-- The slice distribution dict literal, api.py line 110. -/
def initDistribution : List (String × Nat) :=
  [("eMBB", 0), ("URLLC", 0), ("mMTC", 0)]

/-- Incrementing one key of the distribution dict, api.py line 112; a slice
name absent from the dict is a KeyError, modelled by none. -/
def bumpSlice : List (String × Nat) → String → Option (List (String × Nat))
  | [], _ => none
  | (k, v) :: rest, slice =>
      if k = slice then some ((k, v + 1) :: rest)
      else (bumpSlice rest slice).map (fun r => (k, v) :: r)

/-- Total throughput over the registry, api.py line 103. -/
def total_throughput (s : SimulatorState) : ℚ :=
  (s.devices.map (fun p => p.2.throughput)).sum

/-- SimulatorState.get_metrics, api.py lines 88-134. The empty registry gets
a zero snapshot with the full zeroed distribution; otherwise averages, the
clamped network load, the per-slice counts, and the bounded entity listing
(first twenty devices, latency and throughput rounded to two decimals) are
computed from the devices dict. -/
def get_metrics (s : SimulatorState) : Option NetworkMetrics :=
  if s.devices.isEmpty then
    some { network_load := 0, total_devices := 0, avg_latency := 0,
           throughput := 0, slice_distribution := initDistribution,
           devices := [] }
  else
    let devs := s.devices.map Prod.snd
    let total_devices := devs.length
    let avg_latency := (devs.map Device.latency).sum / (total_devices : ℚ)
    let tot := (devs.map Device.throughput).sum
    let network_load := ratMin (tot / 10000 * 100) 100
    (devs.foldlM (fun dist d => bumpSlice dist d.slice) initDistribution).map
      fun dist =>
        { network_load := network_load, total_devices := total_devices,
          avg_latency := avg_latency, throughput := tot,
          slice_distribution := dist,
          devices := (devs.take 20).map fun d =>
            { id := d.id, type := d.type, slice := d.slice,
              latency := round2 d.latency, throughput := round2 d.throughput } }

/-- The shape returned by the metrics endpoint, api.py lines 266-277: the
presentation boundary, where the scalar fields are rounded for display. -/
structure ApiMetrics where
  network_load : ℚ
  total_devices : Nat
  avg_latency : ℚ
  throughput : ℚ
  slice_distribution : List (String × Nat)
deriving DecidableEq

/-- The metrics endpoint, api.py lines 266-277: round the scalar fields of
the computed snapshot to two decimals for display. -/
def api_metrics (s : SimulatorState) : Option ApiMetrics :=
  (get_metrics s).map fun m =>
    { network_load := round2 m.network_load,
      total_devices := m.total_devices,
      avg_latency := round2 m.avg_latency,
      throughput := round2 m.throughput,
      slice_distribution := m.slice_distribution }

/-- The perturbation step of simulate_network, api.py lines 171-175: add the
drawn delta to each metric, then clamp to the floor of one. -/
def perturb (dl dt : ℚ) (d : Device) : Device :=
  { d with latency := max 1 (d.latency + dl),
           throughput := max 1 (d.throughput + dt) }

/-- Iterated perturbation over a list of drawn delta pairs. -/
def perturbIter (d : Device) : List (ℚ × ℚ) → Device
  | [] => d
  | (dl, dt) :: rest => perturbIter (perturb dl dt d) rest

/-- One external registry call: an add with its two arguments, or a remove
with its target id. -/
inductive Op where
  | add (device_type slice_type : String)
  | remove (device_id : String)

/-- Running one call against the registry, returning the new state and
whether the call succeeded (for an add) or returned true (for a remove). -/
def runOp (u : ℚ → ℚ → ℚ) (s : SimulatorState) : Op → SimulatorState × Bool
  | .add dt st => ((add_device u s dt st).1, (add_device u s dt st).2.isSome)
  | .remove id => remove_device s id

/-- Running a sequence of calls, tallying the successful adds and the
removes that returned true. -/
def runTrace (u : ℚ → ℚ → ℚ) : SimulatorState → List Op →
    SimulatorState × Nat × Nat
  | s, [] => (s, 0, 0)
  | s, op :: ops =>
      let next := runOp u s op
      let rest := runTrace u next.1 ops
      match op with
      | .add _ _ => (rest.1, (if next.2 then rest.2.1 + 1 else rest.2.1), rest.2.2)
      | .remove _ => (rest.1, rest.2.1, if next.2 then rest.2.2 + 1 else rest.2.2)

/-- A websocket subscriber of the broadcast hub: an identity, a flag saying
whether send_json succeeds on it, and the messages received so far. -/
structure Conn (μ : Type) where
  id : Nat
  ok : Bool
  received : List μ
deriving DecidableEq

/-- One delivery attempt, api.py line 159: the message is appended to the
inbox when the connection accepts it, and the send raises otherwise. -/
def send_json {μ : Type} (c : Conn μ) (m : μ) : Option (Conn μ) :=
  if c.ok then some { c with received := c.received ++ [m] } else none

/-- ConnectionManager.broadcast, api.py lines 156-161: iterate over the
current subscriber list, try each delivery, and swallow any failure with a
bare except and pass, leaving the failed subscriber in place. -/
def broadcast {μ : Type} (conns : List (Conn μ)) (m : μ) : List (Conn μ) :=
  match conns with
  | [] => []
  | c :: rest =>
      (match send_json c m with
       | some c2 => c2
       | none => c) :: broadcast rest m

/-- Python list remove: delete the first occurrence, raise ValueError
(modelled by none) when the element is absent. -/
def removeFirst {α : Type} [DecidableEq α] : List α → α → Option (List α)
  | [], _ => none
  | x :: xs, a => if x = a then some xs else (removeFirst xs a).map (fun r => x :: r)

/-- ConnectionManager.disconnect, api.py lines 153-154: remove the handle
from the active connection list with list remove. -/
def disconnect {μ : Type} [DecidableEq μ] (conns : List (Conn μ)) (ws : Conn μ) :
    Option (List (Conn μ)) :=
  removeFirst conns ws

/-- Keys of the devices dict. -/
def keysOf (l : List (String × Device)) : List String := l.map Prod.fst

/-- Reachable registry states: keys are distinct, and every key was minted
from a known device type and an already-consumed sequence number. -/
def GoodState (s : SimulatorState) : Prop :=
  (keysOf s.devices).Nodup ∧
  ∀ k ∈ keysOf s.devices, ∃ t c, t ∈ deviceTypes ∧ c ≤ s.device_counter ∧ k = mkDeviceId t c

/-- The device built by a successful add. -/
def mkAdded (u : ℚ → ℚ → ℚ) (s : SimulatorState) (dt st : String) (tr : ℚ × ℚ) : Device :=
  { id := mkDeviceId dt (s.device_counter + 1), type := dt, slice := st,
    latency := u (latencyRangeFor st).1 (latencyRangeFor st).2,
    throughput := u tr.1 tr.2 }

/-- A deterministic sampler used in concrete witnesses: always returns the
lower bound of the requested range. -/
def uLow : ℚ → ℚ → ℚ := fun lo _ => lo

/-- Example device and registry used in concrete witnesses. -/
def exDevice : Device := ⟨"iot_0001", "iot", "mMTC", 81/8, 500⟩

def exState : SimulatorState := ⟨[("iot_0001", exDevice)], 1⟩

theorem natDigitsAux_eq {fuel n : Nat} (h : n ≤ fuel) :
    natDigitsAux fuel n = Nat.digits 10 n := by
  induction fuel generalizing n with
  | zero =>
      have : n = 0 := Nat.le_zero.mp h
      subst this
      simp [natDigitsAux]
  | succ f ih =>
      cases n with
      | zero => simp [natDigitsAux]
      | succ m =>
          rw [natDigitsAux, Nat.digits_def' (by norm_num : (1:ℕ) < 10) (Nat.succ_pos m)]
          congr 1
          have hd : (m + 1) / 10 < m + 1 := Nat.div_lt_self (Nat.succ_pos m) (by norm_num)
          exact ih (by omega)

theorem natDigits_eq (n : Nat) : natDigits n = Nat.digits 10 n := natDigitsAux_eq (Nat.le_refl n)

theorem digitChar_inj {a b : Nat} (ha : a < 10) (hb : b < 10)
    (h : digitChar a = digitChar b) : a = b := by
  have key : ∀ x y : Fin 10, digitChar x.val = digitChar y.val → x = y := by decide
  have := key ⟨a, ha⟩ ⟨b, hb⟩ h
  exact congrArg Fin.val this

theorem digitChar_ne_zeroChar {d : Nat} (hd : d < 10) (h : d ≠ 0) : digitChar d ≠ '0' := by
  have key : ∀ x : Fin 10, x.val ≠ 0 → digitChar x.val ≠ '0' := by decide
  exact key ⟨d, hd⟩ h

theorem map_digitChar_inj : ∀ {l1 l2 : List Nat}, (∀ x ∈ l1, x < 10) → (∀ x ∈ l2, x < 10) →
    l1.map digitChar = l2.map digitChar → l1 = l2 := by
  intro l1
  induction l1 with
  | nil => intro l2 _ _ h; cases l2 with
      | nil => rfl
      | cons b t => simp at h
  | cons a t ih =>
      intro l2 h1 h2 h
      cases l2 with
      | nil => simp at h
      | cons b t2 =>
          simp only [List.map_cons, List.cons.injEq] at h
          have ha : a < 10 := h1 a (by simp)
          have hb : b < 10 := h2 b (by simp)
          have : a = b := digitChar_inj ha hb h.1
          subst this
          have : t = t2 := ih (fun x hx => h1 x (by simp [hx])) (fun x hx => h2 x (by simp [hx])) h.2
          subst this
          rfl

theorem natChars_ne_nil (n : Nat) : natChars n ≠ [] := by
  unfold natChars
  by_cases hn : n = 0
  · simp [hn]
  · simp only [hn, if_false]
    rw [natDigits_eq]
    simp [Nat.digits_ne_nil_iff_ne_zero.mpr hn]

theorem natChars_inj {n m : Nat} (h : natChars n = natChars m) : n = m := by
  unfold natChars at h
  rw [natDigits_eq, natDigits_eq] at h
  by_cases hn : n = 0 <;> by_cases hm : m = 0
  · omega
  · exfalso
    simp only [hn, if_true, hm, if_false] at h
    have h2 : (Nat.digits 10 m).map digitChar = ['0'] := by
      have := congrArg List.reverse h
      simpa using this.symm
    have hlast := Nat.getLast_digit_ne_zero 10 hm
    cases hdig : Nat.digits 10 m with
    | nil => simp [hdig] at h2
    | cons d t =>
        cases t with
        | nil =>
            rw [hdig] at h2
            simp at h2
            have hd10 : d < 10 := Nat.digits_lt_base (by norm_num) (by rw [hdig]; simp)
            have hsome : (Nat.digits 10 m).getLast? = some d := by rw [hdig]; rfl
            rw [List.getLast?_eq_getLast _ (Nat.digits_ne_nil_iff_ne_zero.mpr hm)] at hsome
            have hdz : d ≠ 0 := by
              have := Option.some.inj hsome
              omega
            exact digitChar_ne_zeroChar hd10 hdz h2
        | cons e t2 => rw [hdig] at h2; simp at h2
  · exfalso
    simp only [hn, if_false, hm, if_true] at h
    have h2 : (Nat.digits 10 n).map digitChar = ['0'] := by
      have := congrArg List.reverse h
      simpa using this
    have hlast := Nat.getLast_digit_ne_zero 10 hn
    cases hdig : Nat.digits 10 n with
    | nil => simp [hdig] at h2
    | cons d t =>
        cases t with
        | nil =>
            rw [hdig] at h2
            simp at h2
            have hd10 : d < 10 := Nat.digits_lt_base (by norm_num) (by rw [hdig]; simp)
            have hsome : (Nat.digits 10 n).getLast? = some d := by rw [hdig]; rfl
            rw [List.getLast?_eq_getLast _ (Nat.digits_ne_nil_iff_ne_zero.mpr hn)] at hsome
            have hdz : d ≠ 0 := by
              have := Option.some.inj hsome
              omega
            exact digitChar_ne_zeroChar hd10 hdz h2
        | cons e t2 => rw [hdig] at h2; simp at h2
  · simp only [hn, hm, if_false] at h
    have h2 := congrArg List.reverse h
    simp only [List.reverse_reverse] at h2
    have : Nat.digits 10 n = Nat.digits 10 m :=
      map_digitChar_inj (fun x hx => Nat.digits_lt_base (by norm_num) hx)
        (fun x hx => Nat.digits_lt_base (by norm_num) hx) h2
    exact Nat.digits.injective 10 this



theorem natChars_head_ne_zero {n : Nat} (hn : n ≠ 0) :
    ∃ c t, natChars n = c :: t ∧ c ≠ '0' := by
  unfold natChars
  simp only [hn, if_false]
  rw [natDigits_eq]
  have hne : Nat.digits 10 n ≠ [] := Nat.digits_ne_nil_iff_ne_zero.mpr hn
  obtain ⟨l, d, hld⟩ : ∃ l d, Nat.digits 10 n = l ++ [d] :=
    ⟨_, _, (List.dropLast_append_getLast hne).symm⟩
  refine ⟨digitChar d, (l.map digitChar).reverse, ?_, ?_⟩
  · rw [hld]; simp
  · have hd10 : d < 10 := Nat.digits_lt_base (by norm_num) (by rw [hld]; simp)
    have hdz : d ≠ 0 := by
      have hsome : (Nat.digits 10 n).getLast? = some d := by rw [hld]; simp
      rw [List.getLast?_eq_getLast _ hne] at hsome
      have h1 := Option.some.inj hsome
      have hlast := Nat.getLast_digit_ne_zero 10 hn
      omega
    exact digitChar_ne_zeroChar hd10 hdz

theorem natChars_head_cond {n : Nat} (hn : n ≠ 0) :
    ∀ c t, natChars n = c :: t → c ≠ '0' := by
  obtain ⟨c0, t0, h0, hc0⟩ := natChars_head_ne_zero hn
  intro c t h
  rw [h0] at h
  injection h with h1 _
  rw [← h1]
  exact hc0

theorem replicate_zero_cancel : ∀ (a b : Nat) {u v : List Char},
    (∀ c t, u = c :: t → c ≠ '0') → (∀ c t, v = c :: t → c ≠ '0') →
    List.replicate a '0' ++ u = List.replicate b '0' ++ v → u = v := by
  intro a
  induction a with
  | zero =>
      intro b u v hu hv h
      cases b with
      | zero => simpa using h
      | succ b2 =>
          exfalso
          simp only [List.replicate_succ, List.nil_append, List.cons_append,
            List.replicate_zero] at h
          exact hu _ _ h rfl
  | succ a2 ih =>
      intro b u v hu hv h
      cases b with
      | zero =>
          exfalso
          simp only [List.replicate_succ, List.nil_append, List.cons_append,
            List.replicate_zero] at h
          exact hv _ _ h.symm rfl
      | succ b2 =>
          simp only [List.replicate_succ, List.cons_append, List.cons.injEq] at h
          exact ih b2 hu hv h.2

theorem pad4Chars_zero : pad4Chars 0 = List.replicate 4 '0' := rfl

theorem pad4Chars_inj {n m : Nat} (h : pad4Chars n = pad4Chars m) : n = m := by
  by_cases hn : n = 0 <;> by_cases hm : m = 0
  · omega
  · exfalso
    obtain ⟨c, t, hct, hc⟩ := natChars_head_ne_zero hm
    subst hn
    rw [pad4Chars_zero] at h
    apply hc
    have hcm : c ∈ pad4Chars m := by
      unfold pad4Chars
      rw [hct]
      exact List.mem_append_right _ (List.mem_cons_self c t)
    rw [← h] at hcm
    exact List.eq_of_mem_replicate hcm
  · exfalso
    obtain ⟨c, t, hct, hc⟩ := natChars_head_ne_zero hn
    subst hm
    rw [pad4Chars_zero] at h
    apply hc
    have hcn : c ∈ pad4Chars n := by
      unfold pad4Chars
      rw [hct]
      exact List.mem_append_right _ (List.mem_cons_self c t)
    rw [h] at hcn
    exact List.eq_of_mem_replicate hcn
  · unfold pad4Chars at h
    exact natChars_inj (replicate_zero_cancel _ _ (natChars_head_cond hn) (natChars_head_cond hm) h)

theorem head_ne_append {c1 c2 : Char} {a b x y : List Char} (hc : c1 ≠ c2) :
    (c1 :: a) ++ x ≠ (c2 :: b) ++ y := by
  intro h
  rw [List.cons_append, List.cons_append] at h
  injection h with h1 _
  exact hc h1

theorem smartphone_data : "smartphone".data = 's' :: "martphone".data := rfl

theorem vehicle_data : "vehicle".data = 'v' :: "ehicle".data := rfl

theorem iot_data : "iot".data = 'i' :: "ot".data := rfl

theorem mkDeviceId_data (t : String) (c : Nat) :
    (mkDeviceId t c).data = t.data ++ '_' :: pad4Chars c := by
  simp [mkDeviceId, pad4, String.data_append]

theorem mkDeviceId_inj {t1 t2 : String} {c1 c2 : Nat}
    (h1 : t1 ∈ deviceTypes) (h2 : t2 ∈ deviceTypes)
    (h : mkDeviceId t1 c1 = mkDeviceId t2 c2) : t1 = t2 ∧ c1 = c2 := by
  have hd : t1.data ++ '_' :: pad4Chars c1 = t2.data ++ '_' :: pad4Chars c2 := by
    have h2d := congrArg String.data h
    rw [mkDeviceId_data, mkDeviceId_data] at h2d
    exact h2d
  fin_cases h1 <;> fin_cases h2
  · refine ⟨rfl, ?_⟩
    have := List.append_cancel_left hd
    injection this with _ h3
    exact pad4Chars_inj h3
  · exact absurd hd (by rw [smartphone_data, vehicle_data]; exact head_ne_append (by decide))
  · exact absurd hd (by rw [smartphone_data, iot_data]; exact head_ne_append (by decide))
  · exact absurd hd (by rw [vehicle_data, smartphone_data]; exact head_ne_append (by decide))
  · refine ⟨rfl, ?_⟩
    have := List.append_cancel_left hd
    injection this with _ h3
    exact pad4Chars_inj h3
  · exact absurd hd (by rw [vehicle_data, iot_data]; exact head_ne_append (by decide))
  · exact absurd hd (by rw [iot_data, smartphone_data]; exact head_ne_append (by decide))
  · exact absurd hd (by rw [iot_data, vehicle_data]; exact head_ne_append (by decide))
  · refine ⟨rfl, ?_⟩
    have := List.append_cancel_left hd
    injection this with _ h3
    exact pad4Chars_inj h3

theorem throughput_ranges_type {dt st : String} (h : throughput_ranges dt st ≠ none) :
    dt ∈ deviceTypes := by
  unfold throughput_ranges at h
  by_cases h1 : dt = "smartphone"
  · simp [deviceTypes, h1]
  by_cases h2 : dt = "vehicle"
  · simp [deviceTypes, h2]
  by_cases h3 : dt = "iot"
  · simp [deviceTypes, h3]
  simp [h1, h2, h3] at h

theorem fresh_key {s : SimulatorState} {dt : String} (hg : GoodState s)
    (hdt : dt ∈ deviceTypes) :
    mkDeviceId dt (s.device_counter + 1) ∉ keysOf s.devices := by
  intro hmem
  obtain ⟨t, c, ht, hc, hk⟩ := hg.2 _ hmem
  obtain ⟨_, hcc⟩ := mkDeviceId_inj hdt ht hk
  omega

theorem dictInsert_of_not_mem {l : List (String × Device)} {k : String} {v : Device}
    (h : k ∉ keysOf l) : dictInsert l k v = l ++ [(k, v)] := by
  unfold dictInsert
  have hany : l.any (fun p => p.1 = k) = false := by
    simp only [List.any_eq_false, decide_eq_true_eq]
    intro p hp hpk
    exact h (hpk ▸ List.mem_map_of_mem Prod.fst hp)
  rw [hany]
  simp

theorem add_device_none {u : ℚ → ℚ → ℚ} {s : SimulatorState} {dt st : String}
    (htr : throughput_ranges dt st = none) :
    add_device u s dt st = ({ s with device_counter := s.device_counter + 1 }, none) := by
  simp only [add_device, htr]

theorem add_device_some {u : ℚ → ℚ → ℚ} {s : SimulatorState} {dt st : String} {tr : ℚ × ℚ}
    (htr : throughput_ranges dt st = some tr) :
    add_device u s dt st =
      ({ devices := dictInsert s.devices (mkDeviceId dt (s.device_counter + 1))
            (mkAdded u s dt st tr),
         device_counter := s.device_counter + 1 }, some (mkAdded u s dt st tr)) := by
  simp only [add_device, htr, mkAdded]

theorem add_step_good {u : ℚ → ℚ → ℚ} {s : SimulatorState} (dt st : String)
    (hg : GoodState s) :
    GoodState (add_device u s dt st).1 ∧
    (add_device u s dt st).1.devices.length + (if (add_device u s dt st).2.isSome then 0 else 1) =
      s.devices.length + 1 := by
  cases htr : throughput_ranges dt st with
  | none =>
      rw [add_device_none htr]
      refine ⟨⟨hg.1, ?_⟩, by simp⟩
      intro k hk
      obtain ⟨t, c, ht, hc, hk2⟩ := hg.2 k hk
      exact ⟨t, c, ht, by show c ≤ s.device_counter + 1; omega, hk2⟩
  | some tr =>
      have hdt : dt ∈ deviceTypes := throughput_ranges_type (by rw [htr]; simp)
      have hfresh := fresh_key hg hdt
      rw [add_device_some htr, dictInsert_of_not_mem hfresh]
      refine ⟨⟨?_, ?_⟩, by simp⟩
      · simp only [keysOf, List.map_append, List.map_cons, List.map_nil]
        rw [List.nodup_append]
        refine ⟨hg.1, List.nodup_singleton _, ?_⟩
        intro a ha hb
        simp only [List.mem_singleton] at hb
        subst hb
        exact hfresh ha
      · intro k hk
        simp only [keysOf, List.map_append, List.map_cons, List.map_nil,
          List.mem_append, List.mem_singleton] at hk
        cases hk with
        | inl hk =>
            obtain ⟨t, c, ht, hc, hk2⟩ := hg.2 k hk
            exact ⟨t, c, ht, by show c ≤ s.device_counter + 1; omega, hk2⟩
        | inr hk => exact ⟨dt, s.device_counter + 1, hdt, le_refl _, hk⟩


theorem filter_length_of_mem {l : List (String × Device)} {k : String}
    (hn : (keysOf l).Nodup) (hm : l.any (fun p => p.1 = k) = true) :
    (l.filter (fun p => p.1 != k)).length + 1 = l.length := by
  induction l with
  | nil => simp at hm
  | cons p t ih =>
      simp only [keysOf, List.map_cons, List.nodup_cons] at hn
      by_cases hpk : p.1 = k
      · have hfilter : t.filter (fun q => q.1 != k) = t := by
          apply List.filter_eq_self.mpr
          intro q hq
          simp only [bne_iff_ne, ne_eq, decide_eq_true_eq]
          intro hqk
          apply hn.1
          rw [hpk, ← hqk]
          exact List.mem_map_of_mem Prod.fst hq
        simp only [List.filter_cons]
        have hbne : (p.1 != k) = false := by simp [hpk]
        rw [hbne]
        simp [hfilter]
      · simp only [List.any_cons] at hm
        have hm2 : t.any (fun q => q.1 = k) = true := by
          rcases Bool.or_eq_true_iff.mp hm with h | h
          · exact absurd (of_decide_eq_true h) hpk
          · exact h
        have hrec := ih hn.2 hm2
        have hbne : (p.1 != k) = true := by simp [hpk]
        simp only [List.filter_cons, hbne, if_true, List.length_cons]
        omega

theorem remove_step_good {s : SimulatorState} (id : String) (hg : GoodState s) :
    GoodState (remove_device s id).1 ∧
    (remove_device s id).1.devices.length + (if (remove_device s id).2 then 1 else 0) =
      s.devices.length := by
  unfold remove_device
  by_cases hk : hasKey s id
  · rw [if_pos hk]
    have hsub : (s.devices.filter (fun p => p.1 != id)).Sublist s.devices :=
      List.filter_sublist s.devices
    refine ⟨⟨?_, ?_⟩, ?_⟩
    · exact hg.1.sublist (hsub.map Prod.fst)
    · intro k hkm
      exact hg.2 k ((hsub.map Prod.fst).subset hkm)
    · simp only [if_true]
      exact filter_length_of_mem hg.1 hk
  · rw [if_neg hk]
    exact ⟨hg, by simp⟩

theorem runTrace_conserve {u : ℚ → ℚ → ℚ} : ∀ (ops : List Op) (s : SimulatorState),
    GoodState s →
    GoodState (runTrace u s ops).1 ∧
    (runTrace u s ops).1.devices.length + (runTrace u s ops).2.2 =
      s.devices.length + (runTrace u s ops).2.1 := by
  intro ops
  induction ops with
  | nil => intro s hg; exact ⟨hg, by simp [runTrace]⟩
  | cons op rest ih =>
      intro s hg
      cases op with
      | add dt st =>
          have hstep := add_step_good (u := u) (s := s) dt st hg
          have hrec := ih (add_device u s dt st).1 hstep.1
          simp only [runTrace, runOp]
          constructor
          · exact hrec.1
          · have h1 := hstep.2
            have h2 := hrec.2
            cases hok : (add_device u s dt st).2.isSome <;>
              (rw [hok] at h1; norm_num at h1 ⊢; omega)
      | remove id =>
          have hstep := remove_step_good (s := s) id hg
          have hrec := ih (remove_device s id).1 hstep.1
          simp only [runTrace, runOp]
          constructor
          · exact hrec.1
          · have h1 := hstep.2
            have h2 := hrec.2
            cases hok : (remove_device s id).2 <;>
              (rw [hok] at h1; norm_num at h1 ⊢; omega)

theorem ratMin_eq_min (a b : ℚ) : ratMin a b = min a b := by
  unfold ratMin
  by_cases h : a < b
  · rw [if_pos (show a.blt b = true from h), min_eq_left h.le]
  · rw [if_neg (show ¬ a.blt b = true from h), min_eq_right (not_lt.mp h)]

theorem perturbIter_preserve : ∀ (deltas : List (ℚ × ℚ)) (d : Device),
    1 ≤ d.latency → 1 ≤ d.throughput →
    1 ≤ (perturbIter d deltas).latency ∧ 1 ≤ (perturbIter d deltas).throughput := by
  intro deltas
  induction deltas with
  | nil => intro d h1 h2; exact ⟨h1, h2⟩
  | cons p rest ih =>
      intro d h1 h2
      obtain ⟨dl, dt⟩ := p
      simp only [perturbIter]
      exact ih _ (le_max_left 1 _) (le_max_left 1 _)

/-- Claim C2: after any positive finite number of perturbation steps, with any
drawn deltas whatsoever, latency and throughput are at least one. -/
theorem perturb_clamp_invariant (d : Device) (deltas : List (ℚ × ℚ))
    (h : deltas ≠ []) :
    1 ≤ (perturbIter d deltas).latency ∧ 1 ≤ (perturbIter d deltas).throughput := by
  cases deltas with
  | nil => exact absurd rfl h
  | cons p rest =>
      obtain ⟨dl, dt⟩ := p
      simp only [perturbIter]
      exact perturbIter_preserve rest _ (le_max_left 1 _) (le_max_left 1 _)

/-- Witness for C2 at a concrete device and delta list. -/
theorem perturb_clamp_invariant_witness :
    1 ≤ (perturbIter ⟨"iot_0001", "iot", "mMTC", 3, 2⟩ [(-5, -100)]).latency ∧
    1 ≤ (perturbIter ⟨"iot_0001", "iot", "mMTC", 3, 2⟩ [(-5, -100)]).throughput :=
  perturb_clamp_invariant ⟨"iot_0001", "iot", "mMTC", 3, 2⟩ [(-5, -100)] (by simp)

/-- Claim C3: the empty registry yields a zero snapshot with the full zeroed
distribution and empty listing, not an error. -/
theorem get_metrics_empty_registry (c : Nat) :
    get_metrics ⟨[], c⟩ =
      some { network_load := 0, total_devices := 0, avg_latency := 0, throughput := 0,
             slice_distribution := [("eMBB", 0), ("URLLC", 0), ("mMTC", 0)],
             devices := [] } := rfl

/-- Claim C6: remove_device returns true and deletes exactly when the id is
present, returns false leaving the state unchanged when absent, and a second
removal of the same id returns false. -/
theorem remove_device_spec (s : SimulatorState) (id : String) :
    ((remove_device s id).2 = hasKey s id) ∧
    (hasKey s id = true → hasKey (remove_device s id).1 id = false) ∧
    (hasKey s id = false → remove_device s id = (s, false)) ∧
    (hasKey s id = true → (remove_device (remove_device s id).1 id).2 = false) := by
  have hdel : hasKey s id = true → hasKey (remove_device s id).1 id = false := by
    intro hk
    unfold remove_device
    rw [if_pos hk]
    simp only [hasKey, List.any_eq_false, decide_eq_true_eq]
    intro p hp
    have := List.of_mem_filter hp
    simpa using this
  refine ⟨?_, hdel, ?_, ?_⟩
  · unfold remove_device
    by_cases hk : hasKey s id
    · rw [if_pos hk, hk]
    · rw [if_neg hk]
      simp only [Bool.not_eq_true] at hk
      rw [hk]
  · intro hk
    unfold remove_device
    rw [hk]
    simp
  · intro hk
    have habs : ∀ s2 : SimulatorState, hasKey s2 id = false →
        (remove_device s2 id).2 = false := by
      intro s2 h0
      unfold remove_device
      rw [h0]
      simp
    exact habs _ (hdel hk)

/-- Witness for C6 at a concrete one-device registry. -/
theorem remove_device_spec_witness :
    hasKey ⟨[("iot_0001", ⟨"iot_0001", "iot", "mMTC", 3, 2⟩)], 1⟩ "iot_0001" = true ∧
    hasKey (remove_device ⟨[("iot_0001", ⟨"iot_0001", "iot", "mMTC", 3, 2⟩)], 1⟩ "iot_0001").1
      "iot_0001" = false ∧
    (remove_device
      (remove_device ⟨[("iot_0001", ⟨"iot_0001", "iot", "mMTC", 3, 2⟩)], 1⟩ "iot_0001").1
      "iot_0001").2 = false :=
  ⟨by with_unfolding_all decide,
   (remove_device_spec ⟨[("iot_0001", ⟨"iot_0001", "iot", "mMTC", 3, 2⟩)], 1⟩ "iot_0001").2.1
     (by with_unfolding_all decide),
   (remove_device_spec ⟨[("iot_0001", ⟨"iot_0001", "iot", "mMTC", 3, 2⟩)], 1⟩ "iot_0001").2.2.2
     (by with_unfolding_all decide)⟩


/-- Claim C7: add_device raises exactly when the device type and slice type pair
is absent from the throughput table; a successful add draws its latency from
the range selected by latencyRangeFor, and that selection falls back to the
default range of ten to fifty when the slice type is unknown to the latency
table. -/
theorem add_device_invalid_config (u : ℚ → ℚ → ℚ) (s : SimulatorState)
    (dtype stype : String) :
    ((add_device u s dtype stype).2 = none ↔ throughput_ranges dtype stype = none) ∧
    (∀ d, (add_device u s dtype stype).2 = some d →
       d.latency = u (latencyRangeFor stype).1 (latencyRangeFor stype).2) ∧
    (latency_ranges stype = none → latencyRangeFor stype = (10, 50)) := by
  refine ⟨?_, ?_, ?_⟩
  · cases htr : throughput_ranges dtype stype with
    | none => rw [add_device_none htr]; simp
    | some tr => rw [add_device_some htr]; simp
  · intro d hd
    cases htr : throughput_ranges dtype stype with
    | none => rw [add_device_none htr] at hd; simp at hd
    | some tr =>
        rw [add_device_some htr] at hd
        have hdd := Option.some.inj hd
        rw [← hdd]
        rfl
  · intro h
    simp [latencyRangeFor, h]

/-- Witness for C7: a successful concrete add uses the selected latency
range, and an unknown slice type selects the documented fallback range. -/
theorem add_device_invalid_config_witness :
    ((add_device uLow initialState "smartphone" "eMBB").2 = none ↔
      throughput_ranges "smartphone" "eMBB" = none) ∧
    (⟨"smartphone_0001", "smartphone", "eMBB", 10, 100⟩ : Device).latency =
      uLow (latencyRangeFor "eMBB").1 (latencyRangeFor "eMBB").2 ∧
    latencyRangeFor "strange" = (10, 50) :=
  ⟨(add_device_invalid_config uLow initialState "smartphone" "eMBB").1,
   (add_device_invalid_config uLow initialState "smartphone" "eMBB").2.1
     ⟨"smartphone_0001", "smartphone", "eMBB", 10, 100⟩ (by with_unfolding_all decide),
   (add_device_invalid_config uLow initialState "x" "strange").2.2 (by rfl)⟩

/-- Claim C10: a failed add leaves the devices dict untouched but has already
consumed a sequence number; the next successful add, with any draws, mints
its identifier from the following sequence number, and that identifier
differs from the one the failed call would have used. -/
theorem add_failure_consumes_sequence (u u2 : ℚ → ℚ → ℚ) (s : SimulatorState)
    (dtype stype : String) (h : throughput_ranges dtype stype = none) :
    (add_device u s dtype stype).2 = none ∧
    (add_device u s dtype stype).1.devices = s.devices ∧
    (add_device u s dtype stype).1.device_counter = s.device_counter + 1 ∧
    (∀ dtype2 stype2 d,
       (add_device u2 (add_device u s dtype stype).1 dtype2 stype2).2 = some d →
       d.id = mkDeviceId dtype2 (s.device_counter + 2)) ∧
    (∀ t, mkDeviceId t (s.device_counter + 2) ≠ mkDeviceId t (s.device_counter + 1)) := by
  rw [add_device_none h]
  refine ⟨rfl, rfl, rfl, ?_, ?_⟩
  · intro dtype2 stype2 d hd
    cases htr : throughput_ranges dtype2 stype2 with
    | none => rw [add_device_none htr] at hd; simp at hd
    | some tr =>
        rw [add_device_some htr] at hd
        have hdd := Option.some.inj hd
        rw [← hdd]
        rfl
  · intro t heq
    have hdata := congrArg String.data heq
    rw [mkDeviceId_data, mkDeviceId_data] at hdata
    have hcan := List.append_cancel_left hdata
    injection hcan with _ h3
    have := pad4Chars_inj h3
    omega

/-- Witness for C10: the failed add at a concrete state, followed by a
concrete successful add that skips the consumed sequence number. -/
theorem add_failure_consumes_sequence_witness :
    (add_device uLow initialState "smartphone" "foo").2 = none ∧
    (add_device uLow initialState "smartphone" "foo").1.devices = [] ∧
    (add_device uLow initialState "smartphone" "foo").1.device_counter = 1 ∧
    (⟨"iot_0002", "iot", "mMTC", 50, 1⟩ : Device).id = mkDeviceId "iot" 2 ∧
    mkDeviceId "iot" 2 ≠ mkDeviceId "iot" 1 := by
  have h := add_failure_consumes_sequence uLow uLow initialState "smartphone" "foo" rfl
  exact ⟨h.1, h.2.1, h.2.2.1,
    h.2.2.2.1 "iot" "mMTC" ⟨"iot_0002", "iot", "mMTC", 50, 1⟩ (by with_unfolding_all decide),
    h.2.2.2.2 "iot"⟩

/-- Claim C4: starting from a fresh registry, after any interleaved sequence of
add and remove calls with any random draws, the device count equals the
number of successful adds minus the number of removes that returned true. -/
theorem registry_count_conservation (u : ℚ → ℚ → ℚ) (ops : List Op) :
    (runTrace u initialState ops).1.devices.length =
      (runTrace u initialState ops).2.1 - (runTrace u initialState ops).2.2 ∧
    (runTrace u initialState ops).2.2 ≤ (runTrace u initialState ops).2.1 := by
  have hg : GoodState initialState := ⟨List.nodup_nil, by simp [keysOf, initialState]⟩
  have h := (runTrace_conserve (u := u) ops initialState hg).2
  have hlen : initialState.devices.length = 0 := rfl
  omega

theorem total_throughput_eq (s : SimulatorState) :
    (List.map Device.throughput (List.map Prod.snd s.devices)).sum = total_throughput s := by
  rw [total_throughput, List.map_map]
  rfl

/-- Claim C5: the computed network load is the clamped percentage of total
throughput against the fixed capacity, hence always between zero and one
hundred when throughputs are non-negative. -/
theorem network_load_clamped (s : SimulatorState) (m : NetworkMetrics)
    (hm : get_metrics s = some m)
    (hpos : ∀ p ∈ s.devices, 0 ≤ p.2.throughput) :
    m.network_load = min (total_throughput s / 10000 * 100) 100 ∧
    0 ≤ m.network_load ∧ m.network_load ≤ 100 := by
  have hT : 0 ≤ total_throughput s := by
    apply List.sum_nonneg
    intro x hx
    simp only [total_throughput, List.mem_map] at hx
    obtain ⟨p, hp, rfl⟩ := hx
    exact hpos p hp
  have hload : m.network_load = min (total_throughput s / 10000 * 100) 100 := by
    by_cases he : s.devices.isEmpty
    · unfold get_metrics at hm
      rw [if_pos he] at hm
      have hm2 := Option.some.inj hm
      have hdev : s.devices = [] := List.isEmpty_iff.mp he
      rw [← hm2]
      rw [total_throughput, hdev]
      simp
    · unfold get_metrics at hm
      rw [if_neg he] at hm
      simp only [Option.map_eq_some'] at hm
      obtain ⟨dist, hdist, hf⟩ := hm
      rw [← hf]
      show ratMin _ 100 = _
      rw [ratMin_eq_min, total_throughput_eq]
  refine ⟨hload, ?_, ?_⟩
  · rw [hload]
    exact le_min (by positivity) (by norm_num)
  · rw [hload]
    exact min_le_right _ _

set_option maxRecDepth 10000 in
/-- Witness for C5 at a concrete one-device registry. -/
theorem network_load_clamped_witness :
    (⟨5, 1, 81/8, 500, [("eMBB", 0), ("URLLC", 0), ("mMTC", 1)],
      [⟨"iot_0001", "iot", "mMTC", 253/25, 500⟩]⟩ : NetworkMetrics).network_load =
      min (total_throughput exState / 10000 * 100) 100 ∧
    (0 : ℚ) ≤ (5 : ℚ) ∧ (5 : ℚ) ≤ 100 := by
  have h := network_load_clamped exState
    ⟨5, 1, 81/8, 500, [("eMBB", 0), ("URLLC", 0), ("mMTC", 1)],
     [⟨"iot_0001", "iot", "mMTC", 253/25, 500⟩]⟩
    (by with_unfolding_all decide)
    (by intro p hp; fin_cases hp; norm_num [exDevice])
  exact ⟨h.1, h.2.1, h.2.2⟩


/-- Counterexample to C9: at a concrete one-device registry the per-entity
latency in the computed snapshot is already rounded to two decimals inside
get_metrics and differs from the stored full-precision latency. -/
theorem metrics_rounds_entity_listing :
    (get_metrics exState).map (fun m => m.devices.map DeviceSummary.latency) =
      some [253 / 25] ∧
    exDevice.latency = 81 / 8 ∧ (253 / 25 : ℚ) ≠ 81 / 8 := by
  refine ⟨by with_unfolding_all decide, rfl, by norm_num⟩

/-- Claim C9, amended: the scalar snapshot fields keep full precision inside
get_metrics and the endpoint rounds them at the presentation boundary, but
the per-entity listing values are rounded to two decimals inside
get_metrics itself. -/
theorem get_metrics_precision_spec (s : SimulatorState) (m : NetworkMetrics)
    (hm : get_metrics s = some m) (hne : s.devices ≠ []) :
    m.avg_latency = (s.devices.map (fun p => p.2.latency)).sum / (s.devices.length : ℚ) ∧
    m.throughput = total_throughput s ∧
    m.network_load = min (total_throughput s / 10000 * 100) 100 ∧
    m.devices = (s.devices.take 20).map (fun p =>
      (⟨p.2.id, p.2.type, p.2.slice, round2 p.2.latency, round2 p.2.throughput⟩ :
        DeviceSummary)) ∧
    api_metrics s = some ⟨round2 m.network_load, m.total_devices,
      round2 m.avg_latency, round2 m.throughput, m.slice_distribution⟩ := by
  have hapi : api_metrics s = some ⟨round2 m.network_load, m.total_devices,
      round2 m.avg_latency, round2 m.throughput, m.slice_distribution⟩ := by
    rw [api_metrics, hm]
    rfl
  have he : s.devices.isEmpty = false := by
    cases hd : s.devices with
    | nil => exact absurd hd hne
    | cons a t => rfl
  unfold get_metrics at hm
  rw [he] at hm
  simp only [Bool.false_eq_true, if_false, Option.map_eq_some'] at hm
  obtain ⟨dist, hdist, hf⟩ := hm
  refine ⟨?_, ?_, ?_, ?_, hapi⟩
  · rw [← hf]
    show (List.map Device.latency (List.map Prod.snd s.devices)).sum /
      ((List.map Prod.snd s.devices).length : ℚ) = _
    rw [List.map_map, List.length_map]
    rfl
  · rw [← hf]
    show (List.map Device.throughput (List.map Prod.snd s.devices)).sum = _
    rw [total_throughput_eq]
  · rw [← hf]
    show ratMin _ 100 = _
    rw [ratMin_eq_min, total_throughput_eq]
  · rw [← hf]
    show ((List.map Prod.snd s.devices).take 20).map _ = _
    rw [← List.map_take, List.map_map]
    rfl

set_option maxRecDepth 10000 in
/-- Witness for C9 amended at a concrete one-device registry. -/
theorem get_metrics_precision_spec_witness :
    (⟨5, 1, 81/8, 500, [("eMBB", 0), ("URLLC", 0), ("mMTC", 1)],
      [⟨"iot_0001", "iot", "mMTC", 253/25, 500⟩]⟩ : NetworkMetrics).avg_latency =
      (exState.devices.map (fun p => p.2.latency)).sum / (exState.devices.length : ℚ) ∧
    (⟨5, 1, 81/8, 500, [("eMBB", 0), ("URLLC", 0), ("mMTC", 1)],
      [⟨"iot_0001", "iot", "mMTC", 253/25, 500⟩]⟩ : NetworkMetrics).devices =
      (exState.devices.take 20).map (fun p =>
        (⟨p.2.id, p.2.type, p.2.slice, round2 p.2.latency, round2 p.2.throughput⟩ :
          DeviceSummary)) := by
  have h := get_metrics_precision_spec exState
    ⟨5, 1, 81/8, 500, [("eMBB", 0), ("URLLC", 0), ("mMTC", 1)],
     [⟨"iot_0001", "iot", "mMTC", 253/25, 500⟩]⟩
    (by with_unfolding_all decide) (by simp [exState])
  exact ⟨h.1, h.2.2.2.1⟩


/-- Counterexample to C1: broadcasting over three subscribers of which the
middle one fails leaves the failing subscriber in the subscriber list (it is
not unsubscribed), while the publish call neither fails nor skips the
healthy subscribers. -/
theorem broadcast_failing_subscriber_not_removed :
    broadcast [(⟨1, true, []⟩ : Conn Nat), ⟨2, false, []⟩, ⟨3, true, []⟩] 7 =
      [⟨1, true, [7]⟩, ⟨2, false, []⟩, ⟨3, true, [7]⟩] ∧
    (⟨2, false, []⟩ : Conn Nat) ∈
      broadcast [(⟨1, true, []⟩ : Conn Nat), ⟨2, false, []⟩, ⟨3, true, []⟩] 7 ∧
    (broadcast [(⟨1, true, []⟩ : Conn Nat), ⟨2, false, []⟩, ⟨3, true, []⟩] 7).length = 3 := by
  refine ⟨by decide, by decide, by decide⟩

/-- Claim C1, amended: a publish never fails and never changes the size of the
subscriber list; every subscriber whose delivery succeeds receives the
message, and a subscriber whose delivery raises is skipped silently and left
in place, unchanged. -/
theorem broadcast_isolation_spec {μ : Type} (conns : List (Conn μ)) (m : μ) :
    (broadcast conns m).length = conns.length ∧
    List.Forall₂ (fun c c2 =>
      if c.ok then c2 = { c with received := c.received ++ [m] } else c2 = c)
      conns (broadcast conns m) := by
  induction conns with
  | nil => exact ⟨rfl, List.Forall₂.nil⟩
  | cons c rest ih =>
      refine ⟨by simp only [broadcast, List.length_cons, ih.1], ?_⟩
      simp only [broadcast]
      refine List.Forall₂.cons ?_ ih.2
      by_cases hok : c.ok
      · simp [send_json, hok]
      · simp [send_json, hok]

/-- Counterexample to C8: unsubscribing a handle that is not registered is
not a no-op; the underlying list removal raises ValueError, modelled by the
none result, instead of returning the subscriber list unchanged. -/
theorem disconnect_missing_raises :
    disconnect ([] : List (Conn Nat)) ⟨0, true, []⟩ = none ∧
    disconnect ([] : List (Conn Nat)) ⟨0, true, []⟩ ≠ some [] := by
  exact ⟨rfl, by simp [disconnect, removeFirst]⟩

theorem removeFirst_eq_erase {α : Type} [DecidableEq α] (ws : α) :
    ∀ l : List α, removeFirst l ws = (if ws ∈ l then some (l.erase ws) else none) := by
  intro l
  induction l with
  | nil => simp [removeFirst]
  | cons x xs ih =>
      simp only [removeFirst, List.erase_cons, List.mem_cons]
      by_cases hx : x = ws
      · subst hx
        simp
      · rw [if_neg hx, ih]
        have hxx : (x == ws) = false := by simp [hx]
        by_cases hmem : ws ∈ xs
        · simp [hmem, hxx, Ne.symm hx]
        · simp [hmem, hxx, Ne.symm hx]

/-- Claim C8, amended: unsubscribe removes the first occurrence of a registered
handle, but raises (none) on an unregistered handle rather than being a
no-op; consequently unsubscribing twice a handle that was registered once
raises on the second call instead of being equivalent to one call. -/
theorem disconnect_erase_spec {μ : Type} [DecidableEq μ]
    (conns : List (Conn μ)) (ws : Conn μ) :
    disconnect conns ws = (if ws ∈ conns then some (conns.erase ws) else none) ∧
    (conns.count ws = 1 →
      (disconnect conns ws).bind (fun l => disconnect l ws) = none) := by
  refine ⟨removeFirst_eq_erase ws conns, ?_⟩
  intro hcount
  have hmem : ws ∈ conns := by
    have : 0 < conns.count ws := by omega
    exact List.count_pos_iff.mp this
  rw [disconnect, removeFirst_eq_erase, if_pos hmem]
  simp only [Option.some_bind]
  have hout : ws ∉ conns.erase ws := by
    intro hmem2
    have h1 : 0 < (conns.erase ws).count ws := List.count_pos_iff.mpr hmem2
    have h2 := List.count_erase_self ws conns
    omega
  rw [disconnect, removeFirst_eq_erase, if_neg hout]

/-- Witness for C8 amended: a handle registered exactly once raises on the
second unsubscribe. -/
theorem disconnect_erase_spec_witness :
    (disconnect [(⟨0, true, []⟩ : Conn Nat)] ⟨0, true, []⟩).bind
      (fun l => disconnect l ⟨0, true, []⟩) = none :=
  (disconnect_erase_spec [(⟨0, true, []⟩ : Conn Nat)] ⟨0, true, []⟩).2 (by decide)

end NetSim
